import Mathlib

set_option maxRecDepth 10000

/-!
Verification development for the `certbot-postfix` installer plugin
(`certbot_postfix/installer.py`).  Python strings are modelled as
`List Char`; external subprocesses (`postconf`, the `postfix` control
program) are modelled by explicit parameters recording their outcomes,
and Python exceptions by `Except` error values.
-/

deriving instance DecidableEq for Except

/-- Python strings are modelled as lists of characters. -/
abbrev Str : Type := List Char

/-- Converts a Lean string literal to the `List Char` model. -/
def str (s : String) : Str := s.toList

/-- The whitespace characters removed by Python `str.strip()`. -/
def pySpace (c : Char) : Bool :=
  c = ' ' || c = '\t' || c = '\n' || c = '\r' || c = '\x0b' || c = '\x0c'

/-- Python `s.lstrip()` over the default whitespace set. -/
def lTrim (s : Str) : Str := s.dropWhile pySpace

/-- Python `s.strip()`: whitespace removed from both ends. -/
def pyStrip (s : Str) : Str := (lTrim (lTrim s).reverse).reverse

/-- Python `s.startswith(p)`: `hasPfx p s` checks that `p` is a leading
segment of `s`. -/
def hasPfx : Str → Str → Bool
  | [], _ => true
  | _ :: _, [] => false
  | a :: as, b :: bs => a = b && hasPfx as bs

/-- Python `s.lower()` (ASCII as used by the installer). -/
def pyLower (s : Str) : Str := s.map Char.toLower

/-- `Installer._parse_postconf_output` (installer.py:468-490): expects the
`postconf` output to be exactly one line of the form `name = value`
(one newline character, output starts with `name =`); any other shape
raises `errors.PluginError` (the spec's FormatError), the `.error` case
here.  The value is whitespace-stripped; an empty stripped value is
returned as `none` (Python `None`). -/
def parse_postconf_output (output name : Str) : Except Unit (Option Str) :=
  let ep : Str := name ++ str " ="
  if output.count '\n' ≠ 1 ∨ hasPfx ep output = false then
    .error ()
  else
    let value := pyStrip (output.drop ep.length)
    .ok (if value = [] then none else some value)

lemma hasPfx_self_append (p t : Str) : hasPfx p (p ++ t) = true := by
  induction p with
  | nil => rfl
  | cons a as ih => simp [hasPfx, ih]

lemma lTrim_append (s t : Str) :
    lTrim (s ++ t) = if lTrim s = [] then lTrim t else lTrim s ++ t := by
  induction s with
  | nil => simp [lTrim]
  | cons a as ih =>
    by_cases h : pySpace a
    · simpa [lTrim, List.dropWhile_cons, h] using ih
    · simp [lTrim, List.dropWhile_cons, h]

lemma lTrim_cons_space (c : Char) (s : Str) (h : pySpace c = true) :
    lTrim (c :: s) = lTrim s := by
  simp [lTrim, List.dropWhile_cons, h]

lemma pyStrip_snoc_space (v : Str) (c : Char) (h : pySpace c = true) :
    pyStrip (v ++ [c]) = pyStrip v := by
  unfold pyStrip
  rw [lTrim_append]
  by_cases h0 : lTrim v = []
  · rw [if_pos h0, h0]
    have hc : lTrim [c] = [] := by simp [lTrim, List.dropWhile_cons, h]
    rw [hc]
  · rw [if_neg h0]
    rw [List.reverse_append]
    simp only [List.reverse_cons, List.reverse_nil, List.nil_append,
      List.singleton_append]
    rw [lTrim_cons_space c (lTrim v).reverse h]

/-- C2: the postconf output parser returns the whitespace-trimmed value on a
single newline-terminated line `name = value` (with `none` for an empty
trimmed value), and rejects output with a newline count other than one or a
wrong leading `name =` segment; in particular `"foo = bar\n"` parses to
`"bar"`, `"foo =\n"` parses to absent, and the two-line
`"foo = bar\nbaz = qux\n"` is an error. -/
theorem c2_parse_contract (name v : Str) (h1 : '\n' ∉ name) (h2 : '\n' ∉ v) :
    parse_postconf_output (name ++ str " =" ++ v ++ [('\n')]) name
      = .ok (if pyStrip v = [] then none else some (pyStrip v))
    ∧ (∀ s : Str, s.count '\n' ≠ 1 → parse_postconf_output s name = .error ())
    ∧ (∀ s : Str, hasPfx (name ++ str " =") s = false →
        parse_postconf_output s name = .error ())
    ∧ parse_postconf_output (str "foo = bar\n") (str "foo") = .ok (some (str "bar"))
    ∧ parse_postconf_output (str "foo =\n") (str "foo") = .ok none
    ∧ parse_postconf_output (str "foo = bar\nbaz = qux\n") (str "foo") = .error () := by
  refine ⟨?_, ?_, ?_, by decide, by decide, by decide⟩
  · have hassoc : name ++ str " =" ++ v ++ [('\n')]
        = (name ++ str " =") ++ (v ++ [('\n')]) := by
      simp [List.append_assoc]
    have hcnt : (name ++ str " =" ++ v ++ [('\n')]).count '\n' = 1 := by
      rw [hassoc]
      rw [List.count_append, List.count_append, List.count_append]
      rw [List.count_eq_zero.mpr h1, List.count_eq_zero.mpr h2]
      decide
    have hpfx : hasPfx (name ++ str " =") (name ++ str " =" ++ v ++ [('\n')]) = true := by
      rw [hassoc]; exact hasPfx_self_append _ _
    have hcond : ¬((name ++ str " =" ++ v ++ [('\n')]).count '\n' ≠ 1
        ∨ hasPfx (name ++ str " =") (name ++ str " =" ++ v ++ [('\n')]) = false) := by
      rintro (hc | hp)
      · exact hc hcnt
      · rw [hpfx] at hp; exact absurd hp (by decide)
    unfold parse_postconf_output
    rw [if_neg hcond]
    have hdrop : (name ++ str " =" ++ v ++ [('\n')]).drop (name ++ str " =").length
        = v ++ [('\n')] := by
      rw [hassoc]; exact List.drop_left _ _
    rw [hdrop, pyStrip_snoc_space v '\n' (by decide)]
  · intro s hs
    unfold parse_postconf_output
    rw [if_pos (Or.inl hs)]
  · intro s hs
    unfold parse_postconf_output
    rw [if_pos (Or.inr hs)]

/-- Witness for `c2_parse_contract` at `name = "foo"`, `value = " bar "`. -/
theorem c2_parse_contract_witness :
    parse_postconf_output (str "foo" ++ str " =" ++ str " bar " ++ [('\n')]) (str "foo")
      = .ok (some (str "bar")) := by
  have h := (c2_parse_contract (str "foo") (str " bar ") (by decide) (by decide)).1
  rw [h]; decide

/-- Diagnostic events emitted through `logger.warn` by the policy compiler
(`set_domainwise_tls_policies`, installer.py:79-105). -/
inductive LogEntry
  | multiMxNotSupported
  | usingMx (mx : Str) (address_domain : Str)
  | ignoringMx (ignored : List Str)
  | unknownMinTls (version : Str)
  deriving DecidableEq

/-- The mutable installer fields touched by the policy compiler:
`self.policy_lines` (initialised to `[]` in `Installer.__init__`), the
diagnostic log, and the policy-table file (`none` while this engine has not
yet written it). -/
structure InstallerState where
  policy_lines : List Str
  log : List LogEntry
  file : Option Str
  deriving DecidableEq

/-- `Installer.__init__` (installer.py:68-77): `policy_lines` starts empty. -/
def initState : InstallerState := { policy_lines := [], log := [], file := none }

/-- The `if/elif` chain of installer.py:93-102 mapping the (lowercased)
minimum TLS version of the effective MX policy to the `protocols=` clause;
`none` for an unrecognized version (the `else` branch). -/
def protocolSuffix (v : Str) : Option Str :=
  if pyLower v = str "tlsv1" then some (str " protocols=!SSLv2:!SSLv3")
  else if pyLower v = str "tlsv1.1" then some (str " protocols=!SSLv2:!SSLv3:!TLSv1")
  else if pyLower v = str "tlsv1.2" then
    some (str " protocols=!SSLv2:!SSLv3:!TLSv1:!TLSv1.1")
  else none

/-- The per-entry loop of `set_domainwise_tls_policies`
(installer.py:81-103).  `g` models `self.policy.get_tls_policy(mx).
min_tls_version` (an external lookup into the loaded policy object); the
entries are the ordered items of `self.policy.acceptable_mxs`.  Returns the
accumulated `policy_lines`, the diagnostic log, and `false` when the loop
raised (the unguarded `mx_list[0]` on an empty accept-mx-domains list). -/
def processEntries (g : Str → Str) :
    List (Str × List Str) → List Str → List LogEntry →
    List Str × List LogEntry × Bool
  | [], lines, log => (lines, log, true)
  | (address_domain, mx_list) :: rest, lines, log =>
    let log1 := if 1 < mx_list.length then
        log ++ [LogEntry.multiMxNotSupported,
                LogEntry.usingMx (mx_list.headD []) address_domain,
                LogEntry.ignoringMx (mx_list.drop 1)]
      else log
    match mx_list with
    | [] => (lines, log1, false)
    | mx_domain :: _ =>
      let minv := g mx_domain
      let entry := address_domain ++ str " encrypt" ++ (protocolSuffix minv).getD []
      let log2 := if (protocolSuffix minv).isSome then log1
        else log1 ++ [LogEntry.unknownMinTls minv]
      processEntries g rest (lines ++ [entry]) log2

/-- Python `"\n".join(notes)`. -/
def joinNL (notes : List Str) : Str := List.intercalate [('\n')] notes

/-- The file contents written at installer.py:104-105:
`"\n".join(self.policy_lines) + "\n"`. -/
def renderFile (lines : List Str) : Str := joinNL lines ++ [('\n')]

/-- `Installer.set_domainwise_tls_policies` (installer.py:79-105): runs the
per-entry loop starting from the instance's current `policy_lines` buffer,
then overwrites the policy file with the joined buffer.  When the loop
raises, the mutated fields are kept but the file is not written
(the `with fopen(...)` only runs after the loop). -/
def set_domainwise_tls_policies (g : Str → Str) (entries : List (Str × List Str))
    (st : InstallerState) : Except InstallerState InstallerState :=
  let r := processEntries g entries st.policy_lines st.log
  if r.2.2 then
    .ok { policy_lines := r.1, log := r.2.1, file := some (renderFile r.1) }
  else
    .error { policy_lines := r.1, log := r.2.1, file := st.file }

/-- The line the compiler emits for one address-domain entry. -/
def compiledLine (g : Str → Str) (address_domain : Str) (mx_list : List Str) : Str :=
  address_domain ++ str " encrypt" ++ (protocolSuffix (g (mx_list.headD []))).getD []

/-- The lines derived from the current policy's entries, one per entry. -/
def compiledLines (g : Str → Str) (entries : List (Str × List Str)) : List Str :=
  entries.map (fun e => compiledLine g e.1 e.2)

/-- A fixed external policy lookup resolving every MX to `TLSv1.2`. -/
def gTLS12 : Str → Str := fun _ => str "TLSv1.2"

/-- The policy line for `example.com` at minimum TLS version 1.2. -/
def exLine : Str := str "example.com encrypt protocols=!SSLv2:!SSLv3:!TLSv1:!TLSv1.1"

/-- A one-entry policy: `example.com` accepting the single MX
`mx.example.com`. -/
def exEntry : Str × List Str := (str "example.com", [str "mx.example.com"])

lemma processEntries_ok (g : Str → Str) (entries : List (Str × List Str))
    (h : ∀ e ∈ entries, e.2 ≠ []) (lines : List Str) (log : List LogEntry) :
    ∃ log2, processEntries g entries lines log
      = (lines ++ compiledLines g entries, log2, true) := by
  induction entries generalizing lines log with
  | nil => exact ⟨log, by simp [processEntries, compiledLines]⟩
  | cons e rest ih =>
    obtain ⟨dom, mxl⟩ := e
    obtain ⟨mx, ms, hmx⟩ := List.exists_cons_of_ne_nil (h (dom, mxl) (by simp))
    subst hmx
    have hrest : ∀ e ∈ rest, e.2 ≠ [] := fun e he => h e (by simp [he])
    simp only [processEntries]
    obtain ⟨log2, heq⟩ := ih hrest
      (lines ++ [dom ++ str " encrypt" ++ (protocolSuffix (g mx)).getD []]) _
    refine ⟨log2, ?_⟩
    rw [heq]
    simp [compiledLines, compiledLine, List.append_assoc]

lemma processEntries_single (g : Str → Str) (dom mx : Str) (lines : List Str)
    (log : List LogEntry) :
    processEntries g [(dom, [mx])] lines log
      = (lines ++ [dom ++ str " encrypt" ++ (protocolSuffix (g mx)).getD []],
         if (protocolSuffix (g mx)).isSome then log
         else log ++ [LogEntry.unknownMinTls (g mx)],
         true) := by
  simp [processEntries]

/-- C3: for a single-MX entry the emitted line is `<address_domain> encrypt`
suffixed with the protocol-exclusion clause determined by the effective MX's
minimum TLS version (`TLSv1`, `TLSv1.1`, `TLSv1.2`), and for any version
outside those three (up to the source's lowercasing) the line carries no
protocols clause and a non-fatal unknown-version diagnostic is logged. -/
theorem c3_tls_version_mapping (g : Str → Str) (dom mx v : Str) (lines : List Str)
    (log : List LogEntry) (hg : g mx = v) :
    (v = str "TLSv1" → processEntries g [(dom, [mx])] lines log
        = (lines ++ [dom ++ str " encrypt protocols=!SSLv2:!SSLv3"], log, true))
    ∧ (v = str "TLSv1.1" → processEntries g [(dom, [mx])] lines log
        = (lines ++ [dom ++ str " encrypt protocols=!SSLv2:!SSLv3:!TLSv1"], log, true))
    ∧ (v = str "TLSv1.2" → processEntries g [(dom, [mx])] lines log
        = (lines ++ [dom ++ str " encrypt protocols=!SSLv2:!SSLv3:!TLSv1:!TLSv1.1"],
           log, true))
    ∧ (pyLower v ≠ str "tlsv1" → pyLower v ≠ str "tlsv1.1" → pyLower v ≠ str "tlsv1.2" →
        processEntries g [(dom, [mx])] lines log
        = (lines ++ [dom ++ str " encrypt"],
           log ++ [LogEntry.unknownMinTls v], true)) := by
  subst hg
  refine ⟨?_, ?_, ?_, ?_⟩
  · intro h
    have hp : protocolSuffix (str "TLSv1") = some (str " protocols=!SSLv2:!SSLv3") := by
      decide
    rw [processEntries_single, h, hp]
    have hcat : str " encrypt" ++ str " protocols=!SSLv2:!SSLv3"
        = str " encrypt protocols=!SSLv2:!SSLv3" := by decide
    simp [List.append_assoc, hcat]
  · intro h
    have hp : protocolSuffix (str "TLSv1.1")
        = some (str " protocols=!SSLv2:!SSLv3:!TLSv1") := by decide
    rw [processEntries_single, h, hp]
    have hcat : str " encrypt" ++ str " protocols=!SSLv2:!SSLv3:!TLSv1"
        = str " encrypt protocols=!SSLv2:!SSLv3:!TLSv1" := by decide
    simp [List.append_assoc, hcat]
  · intro h
    have hp : protocolSuffix (str "TLSv1.2")
        = some (str " protocols=!SSLv2:!SSLv3:!TLSv1:!TLSv1.1") := by decide
    rw [processEntries_single, h, hp]
    have hcat : str " encrypt" ++ str " protocols=!SSLv2:!SSLv3:!TLSv1:!TLSv1.1"
        = str " encrypt protocols=!SSLv2:!SSLv3:!TLSv1:!TLSv1.1" := by decide
    simp [List.append_assoc, hcat]
  · intro h1 h2 h3
    have hp : protocolSuffix (g mx) = none := by
      simp [protocolSuffix, h1, h2, h3]
    rw [processEntries_single, hp]
    simp

/-- Witness for `c3_tls_version_mapping`: a single MX resolving to `TLSv1.2`
compiles `example.com` to exactly the fully-excluding policy line. -/
theorem c3_tls_version_mapping_witness :
    processEntries gTLS12 [(str "example.com", [str "mx.example.com"])] [] []
      = ([exLine], [], true) := by
  have h := (c3_tls_version_mapping gTLS12 (str "example.com") (str "mx.example.com")
      (str "TLSv1.2") [] [] rfl).2.2.1 rfl
  rw [h]; decide

/-- C4: an entry declaring more than one accept-mx-domain compiles without an
error to exactly one policy-table line computed from the first declared MX
only, and the remaining MX domains are recorded as ignored by the non-fatal
diagnostics. -/
theorem c4_multi_mx_truncation (g : Str → Str) (dom m1 m2 : Str) (ms : List Str)
    (lines : List Str) (log : List LogEntry) :
    processEntries g [(dom, m1 :: m2 :: ms)] lines log
      = (lines ++ [dom ++ str " encrypt" ++ (protocolSuffix (g m1)).getD []],
         (if (protocolSuffix (g m1)).isSome then
            log ++ [LogEntry.multiMxNotSupported, LogEntry.usingMx m1 dom,
                    LogEntry.ignoringMx (m2 :: ms)]
          else
            log ++ [LogEntry.multiMxNotSupported, LogEntry.usingMx m1 dom,
                    LogEntry.ignoringMx (m2 :: ms), LogEntry.unknownMinTls (g m1)]),
         true) := by
  have hlen : 1 < (m1 :: m2 :: ms).length := by
    simp only [List.length_cons]; omega
  by_cases hp : (protocolSuffix (g m1)).isSome = true <;>
    simp [processEntries, hlen, hp, List.append_assoc]

/-- C10: an address-domain entry with an empty accept-mx-domains list makes
the compiler fail on the unguarded `mx_list[0]`, emitting neither a line nor
a diagnostic for that entry and leaving the policy file unwritten; when every
entry declares at least one MX the compilation succeeds with exactly one
policy-table line per entry. -/
theorem c10_empty_mx_precondition (g : Str → Str) (dom : Str)
    (rest : List (Str × List Str)) (st : InstallerState) :
    set_domainwise_tls_policies g ((dom, []) :: rest) st = .error st
    ∧ ∀ entries : List (Str × List Str), (∀ e ∈ entries, e.2 ≠ []) →
        ∃ st2, set_domainwise_tls_policies g entries st = .ok st2
          ∧ st2.policy_lines.length = st.policy_lines.length + entries.length := by
  constructor
  · simp [set_domainwise_tls_policies, processEntries]
  · intro entries h
    obtain ⟨log2, heq⟩ := processEntries_ok g entries h st.policy_lines st.log
    refine ⟨{ policy_lines := st.policy_lines ++ compiledLines g entries, log := log2,
              file := some (renderFile (st.policy_lines ++ compiledLines g entries)) },
            ?_, ?_⟩
    · simp only [set_domainwise_tls_policies]
      rw [heq]
      rfl
    · simp [compiledLines]


/-- Witness for `c10_empty_mx_precondition`: the empty-MX entry errors with
the state unchanged, and a well-formed one-entry policy yields one line. -/
theorem c10_empty_mx_precondition_witness :
    set_domainwise_tls_policies gTLS12 [(str "a", [])] initState = .error initState
    ∧ ∃ st2, set_domainwise_tls_policies gTLS12 [exEntry] initState = .ok st2
        ∧ st2.policy_lines.length = 1 := by
  have h := c10_empty_mx_precondition gTLS12 (str "a") [] initState
  refine ⟨h.1, ?_⟩
  obtain ⟨st2, h1, h2⟩ := h.2 [exEntry] (by decide)
  exact ⟨st2, h1, by simpa [initState] using h2⟩

/-- C1 (counterexample): compiling the same one-entry policy twice on the same
engine instance leaves the file holding the stale first-run line in addition
to the current one, because `policy_lines` is never cleared between calls;
the file contents are not exactly the lines of the current policy. -/
theorem c1_counterexample :
    set_domainwise_tls_policies gTLS12 [exEntry] initState
      = .ok { policy_lines := [exLine], log := [], file := some (renderFile [exLine]) }
    ∧ set_domainwise_tls_policies gTLS12 [exEntry]
        { policy_lines := [exLine], log := [], file := some (renderFile [exLine]) }
      = .ok { policy_lines := [exLine, exLine], log := [],
              file := some (renderFile [exLine, exLine]) }
    ∧ renderFile [exLine, exLine] ≠ renderFile [exLine] :=
  ⟨by decide, by decide, by decide⟩

/-- C1 (amended): on an engine instance whose `policy_lines` buffer is empty
(as after `__init__`), a successful compilation fully overwrites the policy
file with exactly the newline-joined lines derived from the current policy's
entries, one line per entry, with a trailing newline. -/
theorem c1_amended (g : Str → Str) (entries : List (Str × List Str))
    (st : InstallerState) (h0 : st.policy_lines = [])
    (h1 : ∀ e ∈ entries, e.2 ≠ []) :
    ∃ st2, set_domainwise_tls_policies g entries st = .ok st2
      ∧ st2.policy_lines = compiledLines g entries
      ∧ st2.file = some (renderFile (compiledLines g entries)) := by
  obtain ⟨log2, heq⟩ := processEntries_ok g entries h1 st.policy_lines st.log
  rw [h0] at heq
  simp only [List.nil_append] at heq
  refine ⟨{ policy_lines := compiledLines g entries, log := log2,
            file := some (renderFile (compiledLines g entries)) }, ?_, rfl, rfl⟩
  simp only [set_domainwise_tls_policies]
  rw [h0, heq]
  rfl

/-- Witness for `c1_amended` on a fresh engine and the one-entry policy. -/
theorem c1_amended_witness :
    ∃ st2, set_domainwise_tls_policies gTLS12 [exEntry] initState = .ok st2
      ∧ st2.policy_lines = compiledLines gTLS12 [exEntry]
      ∧ st2.file = some (renderFile (compiledLines gTLS12 [exEntry])) :=
  c1_amended gTLS12 [exEntry] initState rfl (by decide)

/-- Modelled from the spec: the config store adapter `postconf.ConfigMain`
(module `certbot_postfix/postconf.py`, not among the provided sources) holds
the staged name/value pairs — the ProposedChangeSet. -/
structure ConfigMain where
  staged : List (Str × Str)
  deriving DecidableEq

/-- Modelled from the spec: `ConfigMain.flush` issues one external edit
invocation carrying every staged pair; on nonzero exit (modelled by
`exitOk = false`) it reports a CommitError and the staged pairs are kept
(a failed commit leaves the ProposedChangeSet intact); on success the
staged pairs are cleared. -/
def ConfigMain.flush (exitOk : Bool) (_c : ConfigMain) : Except Unit ConfigMain :=
  if exitOk then .ok { staged := [] } else .error ()

/-- The installer fields `Installer.save` touches: the adapter with its
staged ProposedChangeSet, the `save_notes` ChangeNote list, and the note
texts handed to Certbot checkpoints by `add_to_checkpoint`. -/
structure SaveState where
  postconf : ConfigMain
  save_notes : List Str
  checkpoints : List Str
  deriving DecidableEq

/-- `Installer.save` (installer.py:282-303): hands `"\n".join(save_notes)`
to the checkpoint, flushes the staged changes through
`_write_config_changes` (installer.py:411-417), and only then clears
`save_notes`; a flush failure propagates, leaving notes and staged changes
as they were (`.error` carries the post-failure state). -/
def save (exitOk : Bool) (st : SaveState) : Except SaveState SaveState :=
  let st1 : SaveState :=
    { st with checkpoints := st.checkpoints ++ [joinNL st.save_notes] }
  match st1.postconf.flush exitOk with
  | .error _ => .error st1
  | .ok c => .ok { st1 with postconf := c, save_notes := [] }

/-- C5: commit is atomic with respect to the change notes and the proposed
changes — when the underlying flush fails, `save` leaves `save_notes` and
the staged ProposedChangeSet exactly as they were before the call (safe to
retry); on success the joined notes have been handed to the checkpoint and
the notes and staged changes are both cleared. -/
theorem c5_commit_atomicity (st : SaveState) :
    save false st
      = .error { postconf := st.postconf, save_notes := st.save_notes,
                 checkpoints := st.checkpoints ++ [joinNL st.save_notes] }
    ∧ save true st
      = .ok { postconf := { staged := [] }, save_notes := [],
              checkpoints := st.checkpoints ++ [joinNL st.save_notes] } :=
  ⟨rfl, rfl⟩

/-- Assoc-list lookup, modelling a Python dict read. -/
def lookupA : List (Str × Str) → Str → Option Str
  | [], _ => none
  | (k, w) :: rest, n => if k = n then some w else lookupA rest n

/-- Assoc-list update-or-insert, modelling a Python dict write. -/
def setA : List (Str × Str) → Str → Str → List (Str × Str)
  | [], n, v => [(n, v)]
  | (k, w) :: rest, n, v =>
    if k = n then (n, v) :: rest else (k, w) :: setA rest n v

/-- The reconciliation-engine state seen by `_set_vars`: the staged
ProposedChangeSet overlay and the ChangeNote list. -/
structure EngineState where
  staged : List (Str × Str)
  save_notes : List Str
  deriving DecidableEq

/-- Modelled from the spec: `ConfigMain.get` resolves a read against the
pending proposed value when one exists, else against the live store
(the `store` parameter). -/
def cmGet (store : Str → Option Str) (st : EngineState) (name : Str) : Option Str :=
  match lookupA st.staged name with
  | some w => some w
  | none => store name

/-- Modelled from the spec: `ConfigMain.set` is a no-op when the read value
already equals the proposed value; otherwise it stages the pair and appends
the change note `Set <name> to <value>`. -/
def cmSet (store : Str → Option Str) (st : EngineState) (name value : Str) :
    EngineState :=
  if cmGet store st name = some value then st
  else { staged := setA st.staged name value,
         save_notes := st.save_notes ++ [str "Set " ++ name ++ str " to " ++ value] }

/-- A configuration value in the hardened-defaults tables: either a tuple of
acceptable values (first entry the default) or a single forced value. -/
inductive VarVal
  | tup (vs : List Str)
  | single (v : Str)
  deriving DecidableEq

/-- `acceptable_security_levels` (installer.py:22). -/
def acceptable_security_levels : List Str := [str "may", str "encrypt"]

/-- `acceptable_cipher_levels` (installer.py:23). -/
def acceptable_cipher_levels : List Str := [str "medium", str "high"]

/-- `default_server_vars` (installer.py:25-31). -/
def default_server_vars : List (Str × VarVal) :=
  [(str "smtpd_tls_mandatory_protocols", VarVal.single (str "!SSLv2, !SSLv3")),
   (str "smtpd_tls_protocols", VarVal.single (str "!SSLv2, !SSLv3")),
   (str "smtpd_tls_security_level", VarVal.tup acceptable_security_levels),
   (str "smtpd_tls_ciphers", VarVal.tup acceptable_cipher_levels),
   (str "smtpd_tls_eecdh_grade", VarVal.single (str "strong"))]

/-- `default_client_vars` (installer.py:34-37). -/
def default_client_vars : List (Str × VarVal) :=
  [(str "smtp_tls_security_level", VarVal.tup acceptable_security_levels),
   (str "smtp_tls_ciphers", VarVal.tup acceptable_cipher_levels)]

/-- `Installer._set_vars` (installer.py:223-231): for a tuple value the
parameter is set to the tuple's first entry only when the current read is
not among the acceptable values (Python `None not in value` is true, so an
unset parameter is also set); a plain value is always proposed. -/
def set_vars (store : Str → Option Str) :
    List (Str × VarVal) → EngineState → EngineState
  | [], st => st
  | (p, VarVal.tup vs) :: rest, st =>
    let st1 := match cmGet store st p with
      | some cur => if cur ∈ vs then st else cmSet store st p (vs.headD [])
      | none => cmSet store st p (vs.headD [])
    set_vars store rest st1
  | (p, VarVal.single v) :: rest, st => set_vars store rest (cmSet store st p v)

/-- C6 (counterexample): with the live security level reading `may`,
applying the hardened security-level default stages nothing — `may` is in
`acceptable_security_levels`, so no change proposing the opportunistic
value is staged, contrary to the claim. -/
theorem c6_counterexample :
    set_vars (fun _ => some (str "may"))
      [(str "smtp_tls_security_level", VarVal.tup acceptable_security_levels)]
      { staged := [], save_notes := [] }
      = { staged := [], save_notes := [] } := by
  decide

/-- C6 (amended): an already-mandatory `encrypt` security level is never
downgraded — in fact any current value inside the acceptable set (`may` or
`encrypt`) stages no change; a change proposing the opportunistic default
`may` is staged exactly when the current value reads outside the acceptable
set. -/
theorem c6_amended (store : Str → Option Str) (cur : Str)
    (h : store (str "smtp_tls_security_level") = some cur) :
    (cur ∈ acceptable_security_levels →
      set_vars store
        [(str "smtp_tls_security_level", VarVal.tup acceptable_security_levels)]
        { staged := [], save_notes := [] }
        = { staged := [], save_notes := [] })
    ∧ (cur ∉ acceptable_security_levels →
      (set_vars store
        [(str "smtp_tls_security_level", VarVal.tup acceptable_security_levels)]
        { staged := [], save_notes := [] }).staged
        = [(str "smtp_tls_security_level", str "may")]) := by
  have hget : cmGet store { staged := [], save_notes := [] }
      (str "smtp_tls_security_level") = some cur := by
    simp [cmGet, lookupA, h]
  constructor
  · intro hin
    simp [set_vars, hget, hin]
  · intro hout
    have hne : cur ≠ str "may" := by
      intro he; exact hout (he ▸ (by decide : str "may" ∈ acceptable_security_levels))
    have hne2 : cur ≠ str "encrypt" := by
      intro he
      exact hout (he ▸ (by decide : str "encrypt" ∈ acceptable_security_levels))
    simp [set_vars, hget, hout, cmSet, acceptable_security_levels, hne, hne2, setA]

/-- Witness for `c6_amended`: live store reading `encrypt` stages nothing,
and a live store reading `none` stages the opportunistic `may`. -/
theorem c6_amended_witness :
    set_vars (fun _ => some (str "encrypt"))
      [(str "smtp_tls_security_level", VarVal.tup acceptable_security_levels)]
      { staged := [], save_notes := [] }
      = { staged := [], save_notes := [] }
    ∧ (set_vars (fun _ => some (str "none"))
      [(str "smtp_tls_security_level", VarVal.tup acceptable_security_levels)]
      { staged := [], save_notes := [] }).staged
      = [(str "smtp_tls_security_level", str "may")] :=
  ⟨(c6_amended (fun _ => some (str "encrypt")) (str "encrypt") rfl).1 (by decide),
   (c6_amended (fun _ => some (str "none")) (str "none") rfl).2 (by decide)⟩

/-- Python exception classes relevant to the installer: `errors.PluginError`
(the classified plugin error every QueryError/CommitError maps to),
`errors.NotSupportedError` (the spec's UnsupportedVersionError), the builtin
`ValueError` raised by `int()` on a non-numeric literal, and
`errors.MisconfigurationError`. -/
inductive PyError
  | pluginError
  | notSupportedError
  | valueError
  | misconfigurationError
  deriving DecidableEq

/-- Python `s.split(sep)` with an explicit one-character separator: splits at
every occurrence, keeping empty pieces (`"" -> [""]`). -/
def pySplitGo (sep : Char) : Str → Str → List Str
  | [], acc => [acc.reverse]
  | c :: rest, acc =>
    if c = sep then acc.reverse :: pySplitGo sep rest []
    else pySplitGo sep rest (c :: acc)

/-- Python `s.split(sep)`. -/
def pySplit (sep : Char) (s : Str) : List Str := pySplitGo sep s []

/-- Numeric value of a digit string (caller checks the digits). -/
def digitsToNat (s : Str) : Nat := s.foldl (fun n c => n * 10 + (c.toNat - 48)) 0

/-- CPython `int(s)` on a decimal literal: surrounding whitespace stripped,
one optional sign, then one or more decimal digits; `none` models the
`ValueError` raised on any other shape (underscore digit grouping is not
used by the inputs this installer parses and is not modelled). -/
def pyInt (s : Str) : Option Int :=
  let t := pyStrip s
  match t with
  | [] => none
  | c :: rest =>
    if c = '-' then
      if !rest.isEmpty && rest.all (fun d => d.isDigit) then
        some (-(digitsToNat rest : Int))
      else none
    else if c = '+' then
      if !rest.isEmpty && rest.all (fun d => d.isDigit) then
        some ((digitsToNat rest : Int))
      else none
    else if (c :: rest).all (fun d => d.isDigit) then
      some ((digitsToNat (c :: rest) : Int))
    else none

/-- The tuple-building loop of `Installer._get_version` (installer.py:200-212):
`tuple(int(i) for i in mail_version.split('.'))`; the first non-numeric
component makes `int()` raise a bare `ValueError`, which nothing in the
installer catches (uncaught and unclassified, unlike the
`errors.PluginError` wrapping done in `_get_config_default`). -/
def mapPyInt : List Str → Except PyError (List Int)
  | [] => .ok []
  | c :: rest =>
    match pyInt c with
    | none => .error PyError.valueError
    | some n =>
      match mapPyInt rest with
      | .error e => .error e
      | .ok ns => .ok (n :: ns)

/-- `Installer._get_version` applied to the `mail_version` default value
string returned by `_get_config_default`. -/
def get_version (mail_version : Str) : Except PyError (List Int) :=
  mapPyInt (pySplit ('.') mail_version)

lemma mapPyInt_ok (l : List Str) (h : ∀ c ∈ l, pyInt c ≠ none) :
    mapPyInt l = .ok (l.map (fun c => (pyInt c).getD 0)) := by
  induction l with
  | nil => rfl
  | cons c rest ih =>
    have hc : pyInt c ≠ none := h c (by simp)
    obtain ⟨n, hn⟩ := Option.ne_none_iff_exists.mp hc
    rw [mapPyInt, ← hn, ih (fun d hd => h d (by simp [hd]))]
    simp [← hn]

lemma mapPyInt_error (l : List Str) (h : ∃ c ∈ l, pyInt c = none) :
    mapPyInt l = .error PyError.valueError := by
  induction l with
  | nil => simp at h
  | cons c rest ih =>
    by_cases hc : pyInt c = none
    · simp [mapPyInt, hc]
    · obtain ⟨n, hn⟩ := Option.ne_none_iff_exists.mp hc
      obtain ⟨d, hd, hdn⟩ := h
      rcases List.mem_cons.mp hd with hd2 | hd2
      · exact absurd (hd2 ▸ hdn) hc
      · rw [mapPyInt, ← hn, ih ⟨d, hd2, hdn⟩]

/-- C7 (counterexample): on the version default `"2.x"` the component `"x"`
is non-numeric and `_get_version` surfaces the bare `ValueError` from
`int()`, not the classified plugin error (QueryError) the claim requires. -/
theorem c7_counterexample :
    get_version (str "2.x") = .error PyError.valueError
    ∧ PyError.valueError ≠ PyError.pluginError := by
  exact ⟨by decide, by decide⟩

/-- C7 (amended): when every dot-separated component of the version default
is a decimal integer, `_get_version` returns the tuple of those integers;
when some component is non-numeric, the bare unclassified `ValueError` from
`int()` propagates instead of a classified QueryError/PluginError. -/
theorem c7_amended (v : Str) :
    ((∀ c ∈ pySplit ('.') v, pyInt c ≠ none) →
      get_version v = .ok ((pySplit ('.') v).map (fun c => (pyInt c).getD 0)))
    ∧ ((∃ c ∈ pySplit ('.') v, pyInt c = none) →
      get_version v = .error PyError.valueError)
    ∧ get_version (str "2.11.3") = .ok [2, 11, 3] := by
  refine ⟨fun h => mapPyInt_ok _ h, fun h => mapPyInt_error _ h, by decide⟩

/-- Witness for `c7_amended` at the version string `"2.11.3"`. -/
theorem c7_amended_witness :
    get_version (str "2.11.3")
      = .ok ((pySplit ('.') (str "2.11.3")).map (fun c => (pyInt c).getD 0)) :=
  (c7_amended (str "2.11.3")).1 (by decide)

/-- Python tuple comparison `<` on integer tuples: lexicographic with the
shorter tuple smaller on exhaustion, as used by
`self._get_version() < (2, 6,)` (installer.py:168). -/
def pyTupleLt : List Int → List Int → Bool
  | [], [] => false
  | [], _ :: _ => true
  | _ :: _, [] => false
  | a :: as, b :: bs => if a < b then true else if b < a then false else pyTupleLt as bs

/-- `Installer._check_version` (installer.py:162-169): raises
`errors.NotSupportedError` when the installed version tuple compares below
`(2, 6)`. -/
def check_version (v : List Int) : Except PyError Unit :=
  if pyTupleLt v [(2 : Int), 6] then .error PyError.notSupportedError else .ok ()

lemma pyTupleLt_iff_lex (a b : List Int) :
    pyTupleLt a b = true ↔ List.Lex (fun x y : Int => x < y) a b := by
  induction a generalizing b with
  | nil =>
    cases b with
    | nil => exact ⟨fun h => by simp [pyTupleLt] at h, fun h => by cases h⟩
    | cons y ys => exact ⟨fun _ => List.Lex.nil, fun _ => rfl⟩
  | cons x xs ih =>
    cases b with
    | nil =>
      exact ⟨fun h => by simp [pyTupleLt] at h, fun h => by cases h⟩
    | cons y ys =>
      by_cases hxy : x < y
      · simp only [pyTupleLt, if_pos hxy]
        exact ⟨fun _ => List.Lex.rel hxy, fun _ => trivial⟩
      · by_cases hyx : y < x
        · simp only [pyTupleLt, if_neg hxy, if_pos hyx]
          constructor
          · intro h; exact absurd h (by decide)
          · intro h
            cases h with
            | rel h0 => exact absurd h0 hxy
            | cons h0 => exact absurd hyx (lt_irrefl x)
        · have hxy2 : x = y := le_antisymm (not_lt.mp hyx) (not_lt.mp hxy)
          subst hxy2
          simp only [pyTupleLt, if_neg hxy, if_neg hyx]
          constructor
          · intro h; exact List.Lex.cons ((ih ys).mp h)
          · intro h
            cases h with
            | rel h0 => exact absurd h0 hxy
            | cons h0 => exact (ih ys).mpr h0

/-- C8: the preparation version check raises the not-supported error exactly
when the installed version tuple is lexicographically below `(2, 6)` (Python
tuple order, shorter tuple smaller on exhaustion); `(2, 5, 0)` raises while
`(2, 6, 0)` and `(3, 0, 0)` pass. -/
theorem c8_version_check (v : List Int) :
    (check_version v = .error PyError.notSupportedError
      ↔ List.Lex (fun x y : Int => x < y) v [(2 : Int), 6])
    ∧ check_version [(2 : Int), 5, 0] = .error PyError.notSupportedError
    ∧ check_version [(2 : Int), 6, 0] = .ok ()
    ∧ check_version [(3 : Int), 0, 0] = .ok () := by
  refine ⟨?_, by decide, by decide, by decide⟩
  unfold check_version
  by_cases h : pyTupleLt v [(2 : Int), 6] = true
  · rw [if_pos h]
    simp only [true_iff]
    exact (pyTupleLt_iff_lex v _).mp h
  · rw [if_neg h]
    constructor
    · intro h0; exact absurd h0 (by simp)
    · intro h0; exact absurd ((pyTupleLt_iff_lex v _).mpr h0) h

/-- The subcommands of the external `postfix` control program used by the
installer (installer.py:374-390). -/
inductive Subcmd
  | status
  | reload
  | start
  | stop
  | check
  deriving DecidableEq

/-- The distinct failures `Installer._reload` and `Installer._start` raise as
`errors.PluginError`, identifying the failed step by message. -/
inductive LifecycleError
  | reloadFailed
  | stopFailed
  | startFailed
  deriving DecidableEq

/-- `Installer._reload` (installer.py:345-357): issues `reload`; nonzero exit
raises the reload failure.  `exit c = true` models exit status 0 of
subcommand `c`. -/
def reload (exit : Subcmd → Bool) : List Subcmd × Except LifecycleError Unit :=
  if exit Subcmd.reload then ([Subcmd.reload], .ok ())
  else ([Subcmd.reload], .error LifecycleError.reloadFailed)

/-- `Installer._start` (installer.py:359-372): issues `stop` (a nonzero exit
is fatal even though the agent was not running), then `start`; either
failure identifies its step. -/
def start (exit : Subcmd → Bool) : List Subcmd × Except LifecycleError Unit :=
  if exit Subcmd.stop then
    if exit Subcmd.start then ([Subcmd.stop, Subcmd.start], .ok ())
    else ([Subcmd.stop, Subcmd.start], .error LifecycleError.startFailed)
  else ([Subcmd.stop], .error LifecycleError.stopFailed)

/-- `Installer.restart` (installer.py:317-343): probes with `status`
(`_is_postfix_running` maps a nonzero exit to `False`, never to an error),
then reloads when running, else stops and starts.  Returns the issued
subcommand trace and the outcome. -/
def restart (exit : Subcmd → Bool) : List Subcmd × Except LifecycleError Unit :=
  if exit Subcmd.status then
    let r := reload exit
    (Subcmd.status :: r.1, r.2)
  else
    let r := start exit
    (Subcmd.status :: r.1, r.2)

/-- C9: `restart` issues the reload subcommand iff the status subcommand
exits 0; otherwise it issues stop then start, a nonzero status exit alone is
never an error, and a nonzero exit of the stop step or of the start step
raises the error identifying that step. -/
theorem c9_restart (exit : Subcmd → Bool) :
    (Subcmd.reload ∈ (restart exit).1 ↔ exit Subcmd.status = true)
    ∧ (exit Subcmd.status = true → (restart exit).1 = [Subcmd.status, Subcmd.reload])
    ∧ (exit Subcmd.status = false → exit Subcmd.stop = true →
        (restart exit).1 = [Subcmd.status, Subcmd.stop, Subcmd.start])
    ∧ (exit Subcmd.status = false → exit Subcmd.stop = false →
        (restart exit).2 = .error LifecycleError.stopFailed
        ∧ (restart exit).1 = [Subcmd.status, Subcmd.stop])
    ∧ (exit Subcmd.status = false → exit Subcmd.stop = true →
        exit Subcmd.start = false →
        (restart exit).2 = .error LifecycleError.startFailed)
    ∧ (exit Subcmd.status = false → exit Subcmd.stop = true →
        exit Subcmd.start = true → (restart exit).2 = .ok ()) := by
  by_cases hs : exit Subcmd.status = true <;>
    by_cases ht : exit Subcmd.stop = true <;>
      by_cases hr : exit Subcmd.start = true <;>
        by_cases hl : exit Subcmd.reload = true <;>
          simp [restart, reload, start, hs, ht, hr, hl]

/-- Witness for `c9_restart` with every subcommand failing: the stop step's
failure is reported (fatal even though the agent was not running). -/
theorem c9_restart_witness :
    (restart (fun _ => false)).2 = .error LifecycleError.stopFailed
    ∧ (restart (fun _ => false)).1 = [Subcmd.status, Subcmd.stop] :=
  (c9_restart (fun _ => false)).2.2.2.1 rfl rfl
